import Mathlib

/-!
Verification of the KantoCollect COGS Rule Matching & Product Catalog
Mapping Engine.

This file gives a shallow embedding of the engine's core functions:

* `normalize_product_name`, `match_cogs_rule`, `apply_cogs_to_transaction`
  and `recalculate_transaction_cogs` from
  `backend/app/services/whatnot/cogs_service.py`;
* the transaction→catalog-entry resolution of `get_product_catalog`, the
  bulk `save_product_cogs` operation, the `mark_catalog_item_mapped`
  bulk action and the manual-override branch of `update_transaction`
  from `backend/app/api/v1/admin/whatnot.py`.

Python strings are embedded as `List Char`; `Decimal` money values as
`ℚ`; nullable columns as `Option`; the database tables as lists (rows
in the order the corresponding query delivers them, with `WHERE` /
`ORDER BY` clauses modelled explicitly or as hypotheses).
-/

set_option allowUnsafeReducibility true

attribute [semireducible] Rat.mul Rat.add Rat.sub Rat.inv

namespace Kanto

/-- Python strings, embedded as lists of characters. -/
abbrev Str := List Char

/-! ### Python string primitives -/

/-- Python's notion of ASCII whitespace, as used by `str.strip`,
`str.split()` and the regex class `\s`. -/
def pyIsSpace (c : Char) : Bool :=
  c = ' ' || c = '\t' || c = '\n' || c = '\r' || c = '\x0b' || c = '\x0c'

/-- `str.lower()` restricted to ASCII (all data handled by the engine is
ASCII; Lean's `Char.toLower` agrees with Python there). -/
def pyLower (s : Str) : Str := s.map Char.toLower

/-- `str.strip()`: remove leading and trailing whitespace. -/
def pyStrip (s : Str) : Str :=
  ((s.dropWhile pyIsSpace).reverse.dropWhile pyIsSpace).reverse

/-- `needle in hay` starting-at-front test: `hay.startswith needle`. -/
def strStartsWith : Str → Str → Bool
  | _, [] => true
  | [], _ :: _ => false
  | c :: s, d :: p => c == d && strStartsWith s p

/-- Python's `needle in hay` substring test. -/
def strContains : Str → Str → Bool
  | s, needle =>
    strStartsWith s needle ||
      match s with
      | [] => false
      | _ :: t => strContains t needle

/-- `hay.endswith needle`. -/
def strEndsWith (s needle : Str) : Bool :=
  strStartsWith s.reverse needle.reverse

/-- Python `s.split()` (no argument): split on whitespace runs,
dropping empty words. -/
def pySplit (s : Str) : List Str :=
  let step : Char → List Str × Str → List Str × Str := fun c acc =>
    if pyIsSpace c then
      (if acc.2.isEmpty then acc else (acc.2 :: acc.1, []))
    else (acc.1, c :: acc.2)
  let r := s.foldr step ([], [])
  if r.2.isEmpty then r.1 else r.2 :: r.1

/-- `' '.join(words)`. -/
def joinSpace : List Str → Str
  | [] => []
  | [w] => w
  | w :: ws => w ++ ' ' :: joinSpace ws

/-- Characters kept by the regex substitution
`re.sub(r'[^a-z0-9\s\-]', '', ·)`. -/
def keepChar (c : Char) : Bool :=
  ('a' ≤ c && c ≤ 'z') || ('0' ≤ c && c ≤ '9') || pyIsSpace c || c = '-'

/-! ### `cogs_service.normalize_product_name` -/

/-- `normalize_product_name` (cogs_service.py:21-45): lower-case and
strip, delete every character other than `[a-z0-9\s\-]`, then collapse
whitespace runs via `' '.join(normalized.split())`. -/
def normalize_product_name (name : Str) : Str :=
  let normalized := pyStrip (pyLower name)
  let normalized := normalized.filter keepChar
  joinSpace (pySplit normalized)

/-! ### Data model (`models/whatnot.py`) -/

/-- `MatchType` enum. -/
inductive MatchType where
  | contains
  | starts_with
  | ends_with
  | exact
deriving DecidableEq, Repr

/-- `COGSMappingRule` row (the columns the matcher reads). `id` is the
primary key, always present and positive on persisted rows. -/
structure COGSMappingRule where
  id : Nat
  rule_name : Str
  keywords : List Str
  cogs_amount : ℚ
  match_type : MatchType
  priority : Int
  is_active : Bool
  category : Option Str
deriving DecidableEq, Repr

/-! ### `cogs_service.match_cogs_rule` -/

/-- The per-keyword test of `match_cogs_rule` (cogs_service.py:80-97):
the keyword is normalized by `keyword.lower().strip()` and tested
against the (already normalized) product name under the rule's
`match_type`. -/
def keywordTest (mt : MatchType) (keyword_normalized name : Str) : Bool :=
  match mt with
  | .contains => strContains name keyword_normalized
  | .starts_with => strStartsWith name keyword_normalized
  | .ends_with => strEndsWith name keyword_normalized
  | .exact => name == keyword_normalized

/-- Inner loop of `match_cogs_rule`: iterate the rule's keywords in list
order, returning the rule's id and cost on the first hit. -/
def matchKeywordsLoop (rule : COGSMappingRule) :
    List Str → Str → Option (Nat × ℚ)
  | [], _ => none
  | kw :: kws, name =>
    let keyword_normalized := pyStrip (pyLower kw)
    if keywordTest rule.match_type keyword_normalized name then
      some (rule.id, rule.cogs_amount)
    else matchKeywordsLoop rule kws name

/-- Outer loop of `match_cogs_rule`: iterate rules in the given (query)
order, short-circuiting on the first rule with a matching keyword. -/
def matchRulesLoop : List COGSMappingRule → Str → Option Nat × Option ℚ
  | [], _ => (none, none)
  | rule :: rules, name =>
    match matchKeywordsLoop rule rule.keywords name with
    | some (i, c) => (some i, some c)
    | none => matchRulesLoop rules name

/-- `match_cogs_rule` (cogs_service.py:48-100). `rules` stands for the
`cogs_mapping_rules` table in the order delivered by
`ORDER BY priority DESC`; the `WHERE is_active` clause is the filter. -/
def match_cogs_rule (rules : List COGSMappingRule) (normalized_product_name : Str) :
    Option Nat × Option ℚ :=
  matchRulesLoop (rules.filter (fun r => r.is_active)) normalized_product_name

/-- Whether a rule has some keyword matching the name (extensional
content of the inner loop). -/
def ruleMatches (rule : COGSMappingRule) (name : Str) : Bool :=
  rule.keywords.any (fun kw =>
    keywordTest rule.match_type (pyStrip (pyLower kw)) name)

/-- `SalesTransaction` row (the columns the engine reads or writes).
`Decimal` columns are `ℚ`; nullable columns are `Option`; `mapped_at`
timestamps are abstract `Nat` instants. -/
structure SalesTransaction where
  id : Nat
  show_id : Option Nat
  sale_type : Str
  item_name : Str
  quantity : Int
  gross_sale_price : ℚ
  net_earnings : ℚ
  cogs : Option ℚ
  net_profit : Option ℚ
  roi_percent : Option ℚ
  matched_cogs_rule_id : Option Nat
  catalog_item_id : Option Nat
  is_mapped : Bool
  matched_keyword : Option Str
  mapped_at : Option Nat
deriving DecidableEq, Repr

/-- `WhatnotShow` row (the denormalized totals the bulk COGS path
rewrites; the other columns are untouched by the operations modelled
here). -/
structure WhatnotShow where
  id : Nat
  total_cogs : ℚ
  total_net_profit : ℚ
deriving DecidableEq, Repr

/-- `CatalogRuleType` enum. -/
inductive CatalogRuleType where
  | include_any
  | include_all
  | include_and_exclude
  | catch_all
deriving DecidableEq, Repr

/-- `ProductCatalog` row (the columns the catalog matcher and the bulk
mark-mapped action read). -/
structure ProductCatalog where
  id : Nat
  name : Str
  rule_type : CatalogRuleType
  include_keywords : List Str
  exclude_keywords : List Str
  priority : Int
  keywords : List Str
deriving DecidableEq, Repr

/-! ### `cogs_service.apply_cogs_to_transaction` -/

/-- `apply_cogs_to_transaction` (cogs_service.py:103-134): in-place
update modelled functionally.  `total_cogs := cogs_per_unit × quantity`;
`net_profit := net_earnings − total_cogs`; `roi_percent` is set only for
strictly positive `total_cogs`, else `None`. -/
def apply_cogs_to_transaction (transaction : SalesTransaction)
    (cogs_per_unit : ℚ) (rule_id : Option Nat) : SalesTransaction :=
  let total_cogs := cogs_per_unit * (transaction.quantity : ℚ)
  let net_profit := transaction.net_earnings - total_cogs
  { transaction with
    cogs := some total_cogs
    matched_cogs_rule_id := rule_id
    net_profit := some net_profit
    roi_percent :=
      if total_cogs > 0 then some (net_profit / total_cogs * 100) else none }

/-! ### `cogs_service.recalculate_transaction_cogs` -/

/-- The clearing assignments of `recalculate_transaction_cogs`'s
no-match branch (cogs_service.py:310-314). -/
def clearCogsFields (transaction : SalesTransaction) : SalesTransaction :=
  { transaction with
    cogs := none
    net_profit := none
    roi_percent := none
    matched_cogs_rule_id := none }

/-- `recalculate_transaction_cogs` (cogs_service.py:282-316): normalize
the item name, re-run the matcher; on a match apply it, otherwise clear
all four COGS-derived fields.  Returns the updated row and the function's
boolean result. -/
def recalculate_transaction_cogs (rules : List COGSMappingRule)
    (transaction : SalesTransaction) : SalesTransaction × Bool :=
  let normalized := normalize_product_name transaction.item_name
  match match_cogs_rule rules normalized with
  | (rule_id, some cogs_amount) =>
    (apply_cogs_to_transaction transaction cogs_amount rule_id, true)
  | (_, none) => (clearCogsFields transaction, false)

/-! ### Manual override (`update_transaction`, whatnot.py:318-341) -/

/-- The `payload.cogs is not None` branch of `update_transaction`:
manual COGS override.  `cogs` here is the *total* COGS for the line;
`matched_cogs_rule_id` is forced to `None`. -/
def manual_override_cogs (transaction : SalesTransaction) (cogs : ℚ) :
    SalesTransaction :=
  let net_profit := transaction.net_earnings - cogs
  { transaction with
    cogs := some cogs
    matched_cogs_rule_id := none
    net_profit := some net_profit
    roi_percent := if cogs > 0 then some (net_profit / cogs * 100) else none }

/-! ### The transaction queries of the admin endpoints -/

/-- The `WHERE (show_id IS NOT NULL OR sale_type = 'marketplace')`
filter shared by `get_product_catalog`, `save_product_cogs` and
`mark_catalog_item_mapped`: everything except the "test" bucket
(null show and non-marketplace sale type). -/
def visibleTransaction (t : SalesTransaction) : Bool :=
  t.show_id.isSome || t.sale_type == "marketplace".toList

/-! ### `save_product_cogs` (whatnot.py:1054-1151) -/

/-- The Whatnot database state touched by `save_product_cogs`: the three
tables, each as its list of rows. -/
structure DBState where
  rules : List COGSMappingRule
  transactions : List SalesTransaction
  shows : List WhatnotShow
deriving DecidableEq, Repr

/-- A fresh primary key for an inserted rule row (any value distinct
from the existing ids; autoincrement modelled as max+1). -/
def freshRuleId (rules : List COGSMappingRule) : Nat :=
  (rules.map (fun r => r.id)).foldr max 0 + 1

/-- The update branch of the create-or-update step: find the first rule
whose `rule_name` equals the auto-generated name and overwrite its
`keywords`, `cogs_amount` and `is_active` in place, returning its id. -/
def updateAutoRule (rule_name : Str) (keywords : List Str) (cogs : ℚ) :
    List COGSMappingRule → Option (List COGSMappingRule × Nat)
  | [] => none
  | r :: rs =>
    if r.rule_name == rule_name then
      some ({ r with
              keywords := keywords
              cogs_amount := cogs
              is_active := true } :: rs, r.id)
    else
      match updateAutoRule rule_name keywords cogs rs with
      | some (rs', i) => some (r :: rs', i)
      | none => none

/-- Create-or-update of the `"{product} - Auto-generated"` rule
(whatnot.py:1066-1095): update the existing rule in place, or insert a
new `contains`-mode, priority-50, active rule. -/
def upsertAutoRule (rules : List COGSMappingRule) (rule_name : Str)
    (keywords : List Str) (cogs : ℚ) (product_name : Str) :
    List COGSMappingRule × Nat :=
  match updateAutoRule rule_name keywords cogs rules with
  | some p => p
  | none =>
    let rid := freshRuleId rules
    (rules ++ [{ id := rid
                 rule_name := rule_name
                 keywords := keywords
                 cogs_amount := cogs
                 match_type := .contains
                 priority := 50
                 is_active := true
                 category := some product_name }], rid)

/-- The bulk scan's per-transaction keyword test (whatnot.py:1111-1113):
plain substring containment of `keyword.lower()` in
`t.item_name.lower()` — note: *not* `normalize_product_name`. -/
def kwHit (keywords : List Str) (t : SalesTransaction) : Bool :=
  keywords.any (fun kw => strContains (pyLower t.item_name) (pyLower kw))

/-- The bulk scan's per-transaction mutation (whatnot.py:1113-1126).
`net_profit`/`roi_percent` are updated only under the code's guards
(`if t.net_earnings:` and `if t.cogs > 0:`); outside them the prior
values survive. -/
def bulkApplyTx (cogs_decimal : ℚ) (rule_id : Nat) (t : SalesTransaction) :
    SalesTransaction :=
  let c := cogs_decimal * (t.quantity : ℚ)
  let t1 := { t with cogs := some c, matched_cogs_rule_id := some rule_id }
  if t1.net_earnings = 0 then t1
  else
    let np := t1.net_earnings - c
    let t2 := { t1 with net_profit := some np }
    if c > 0 then { t2 with roi_percent := some (np / c * 100) } else t2

/-- The guarded per-transaction step of the bulk scan: apply the cost
exactly when the transaction is outside the test bucket and has a
keyword hit, else leave the row unchanged (whatnot.py:1110-1126). -/
def bulkScanTx (cogs : ℚ) (rule_id : Nat) (keywords : List Str)
    (t : SalesTransaction) : SalesTransaction :=
  if visibleTransaction t && kwHit keywords t then bulkApplyTx cogs rule_id t
  else t

/-- The show ids collected during the scan (whatnot.py:1124-1128): the
`show_id`s of the visible transactions with a keyword hit.  The code
guards the collection with Python truthiness (`if t.show_id:`), which
skips both `None` and the falsy id `0`. -/
def affectedShowIds (keywords : List Str)
    (txs : List SalesTransaction) : List Nat :=
  txs.filterMap (fun t =>
    if visibleTransaction t && kwHit keywords t then
      match t.show_id with
      | some sid => if sid ≠ 0 then some sid else none
      | none => none
    else none)

/-- The per-show recomputation (whatnot.py:1133-1146): shows touched by
the scan get `total_cogs` / `total_net_profit` re-summed from the final
transaction rows attached to them; other shows are untouched.  Show
rows are addressed by their (unique) primary key via `db.get`, modelled
as a map over the show table. -/
def showRecompute (transactions' : List SalesTransaction)
    (affected : List Nat) (sh : WhatnotShow) : WhatnotShow :=
  if affected.contains sh.id then
    { sh with
      total_cogs :=
        ((transactions'.filter (fun t => t.show_id == some sh.id)).map
          (fun t => t.cogs.getD 0)).sum
      total_net_profit :=
        ((transactions'.filter (fun t => t.show_id == some sh.id)).map
          (fun t => t.net_profit.getD 0)).sum }
  else sh

/-- `save_product_cogs` (whatnot.py:1054-1151): create-or-update the
auto rule; scan every non-test transaction and apply the cost to those
with a keyword hit; re-sum the totals of every show that had a matched
transaction. -/
def save_product_cogs (s : DBState) (product_name : Str) (cogs : ℚ)
    (keywords : List Str) : DBState :=
  let rule_name := product_name ++ " - Auto-generated".toList
  let up := upsertAutoRule s.rules rule_name keywords cogs product_name
  let transactions' := s.transactions.map (bulkScanTx cogs up.2 keywords)
  let affected := affectedShowIds keywords s.transactions
  let shows' := s.shows.map (showRecompute transactions' affected)
  { rules := up.1, transactions := transactions', shows := shows' }

/-! ### Catalog resolution (`get_product_catalog`, whatnot.py:928-1051) -/

/-- Per-entry keyword condition of the main pass (whatnot.py:985-1009);
`catch_all` entries are skipped in the main pass (`continue`), modelled
as never matching there. -/
def catalogEntryMatches (c : ProductCatalog) (item_name_lower : Str) : Bool :=
  match c.rule_type with
  | .include_all =>
    c.include_keywords.all (fun kw => strContains item_name_lower (pyLower kw))
  | .include_any =>
    c.include_keywords.any (fun kw => strContains item_name_lower (pyLower kw))
  | .include_and_exclude =>
    (c.include_keywords.any (fun kw => strContains item_name_lower (pyLower kw)))
      && !(c.exclude_keywords.any (fun kw => strContains item_name_lower (pyLower kw)))
  | .catch_all => false

/-- Main keyword pass: first non-`catch_all` entry (in the given query
order) whose condition holds. -/
def catalogMainPass : List ProductCatalog → Str → Option Nat
  | [], _ => none
  | c :: cs, name =>
    if c.rule_type == CatalogRuleType.catch_all then catalogMainPass cs name
    else if catalogEntryMatches c name then some c.id
    else catalogMainPass cs name

/-- The `catch_all` entry used as fallback: the first one encountered
in the query order (whatnot.py:959-963). -/
def firstCatchAll (catalog_items : List ProductCatalog) : Option ProductCatalog :=
  catalog_items.find? (fun c => c.rule_type == CatalogRuleType.catch_all)

/-- Transaction→catalog-entry resolution of `get_product_catalog`
(whatnot.py:965-1018): manual mapping first (Python truthiness of the
int id modelled as `cid ≠ 0`), then the keyword pass, then the
catch-all fallback, else unmapped. -/
def resolveCatalogItem (catalog_items : List ProductCatalog)
    (t : SalesTransaction) : Option Nat :=
  let direct : Option Nat :=
    match t.catalog_item_id with
    | some cid =>
      if cid ≠ 0 ∧ t.is_mapped ∧ catalog_items.any (fun c => c.id == cid) then
        some cid
      else none
    | none => none
  match direct with
  | some cid => some cid
  | none =>
    let item_name_lower := pyLower t.item_name
    match catalogMainPass catalog_items item_name_lower with
    | some cid => some cid
    | none => (firstCatchAll catalog_items).map (fun c => c.id)

/-- Per-entry sales count of `get_product_catalog` (whatnot.py:1021-1030):
the transactions of the non-test query resolving to this entry.  The
code's `transaction_matches` dict is keyed by the unique transaction
primary key, so it is the per-row resolution. -/
def get_product_catalog_sales (catalog_items : List ProductCatalog)
    (transactions : List SalesTransaction) (item : ProductCatalog) : Nat :=
  ((transactions.filter visibleTransaction).filter
    (fun t => resolveCatalogItem catalog_items t == some item.id)).length

/-- Per-entry revenue sum of `get_product_catalog`. -/
def get_product_catalog_revenue (catalog_items : List ProductCatalog)
    (transactions : List SalesTransaction) (item : ProductCatalog) : ℚ :=
  (((transactions.filter visibleTransaction).filter
    (fun t => resolveCatalogItem catalog_items t == some item.id)).map
      (fun t => t.gross_sale_price)).sum

/-! ### `mark_catalog_item_mapped` (whatnot.py:1330-1385) -/

/-- Per-transaction step of the bulk mark-mapped loop
(whatnot.py:1358-1377): skip transactions already mapped to a different
entry; otherwise mark on the first matching legacy keyword. -/
def markMappedTx (catalog_id : Nat) (item : ProductCatalog) (now : Nat)
    (t : SalesTransaction) : SalesTransaction :=
  if t.is_mapped && !(t.catalog_item_id == some catalog_id) then t
  else
    match item.keywords.find?
        (fun kw => strContains (pyLower t.item_name) (pyLower kw)) with
    | some kw =>
      { t with catalog_item_id := some catalog_id, is_mapped := true,
               matched_keyword := some kw, mapped_at := some now }
    | none => t

/-- `mark_catalog_item_mapped`: `none` models the 404 abort (no
mutation); otherwise every non-test transaction goes through
`markMappedTx`. -/
def mark_catalog_item_mapped (catalog_items : List ProductCatalog)
    (transactions : List SalesTransaction) (catalog_id : Nat) (now : Nat) :
    Option (List SalesTransaction) :=
  match catalog_items.find? (fun c => c.id == catalog_id) with
  | none => none
  | some item =>
    some (transactions.map (fun t =>
      if visibleTransaction t then markMappedTx catalog_id item now t else t))

/-! ### Specification-side definitions (written from the claims, for
refinement statements) -/

/-- Written from claim C1's words: the first active rule, in the given
(descending-priority) order, one of whose keywords matches, returning
its id and per-unit cost; `(none, none)` when no active rule matches. -/
def cogsMatcherSpec (rules : List COGSMappingRule) (name : Str) :
    Option Nat × Option ℚ :=
  match (rules.filter (fun r => r.is_active)).find?
      (fun r => ruleMatches r name) with
  | some r => (some r.id, some r.cogs_amount)
  | none => (none, none)

/-! ## Helper lemmas -/

theorem matchKeywordsLoop_eq (rule : COGSMappingRule) (kws : List Str)
    (name : Str) :
    matchKeywordsLoop rule kws name =
      if kws.any (fun kw =>
          keywordTest rule.match_type (pyStrip (pyLower kw)) name) then
        some (rule.id, rule.cogs_amount)
      else none := by
  induction kws with
  | nil => simp [matchKeywordsLoop]
  | cons kw kws ih =>
    simp only [matchKeywordsLoop, List.any_cons, ih]
    by_cases h : keywordTest rule.match_type (pyStrip (pyLower kw)) name = true
    · simp [h]
    · simp [h]

theorem matchRulesLoop_eq_find (rules : List COGSMappingRule) (name : Str) :
    matchRulesLoop rules name =
      match rules.find? (fun r => ruleMatches r name) with
      | some r => (some r.id, some r.cogs_amount)
      | none => (none, none) := by
  induction rules with
  | nil => simp [matchRulesLoop]
  | cons r rs ih =>
    simp only [matchRulesLoop, matchKeywordsLoop_eq, List.find?_cons]
    cases h : r.keywords.any (fun kw =>
        keywordTest r.match_type (pyStrip (pyLower kw)) name) with
    | true =>
      have h' : ruleMatches r name = true := h
      rw [h']
      simp [h]
    | false =>
      have h' : ruleMatches r name = false := h
      rw [h']
      simp [h, ih]

/-- In a list sorted weakly descending by a weight `w`, the element
`find?` returns has maximal weight among the elements satisfying the
predicate. -/
theorem find?_weight_max {α : Type} (w : α → Int) (p : α → Bool)
    (l : List α)
    (hl : l.Pairwise (fun a b => w b ≤ w a))
    (r : α) (hr : l.find? p = some r)
    (s : α) (hs : s ∈ l) (hps : p s = true) :
    w s ≤ w r := by
  induction l with
  | nil => simp at hr
  | cons a l ih =>
    rw [List.find?_cons] at hr
    rcases List.pairwise_cons.mp hl with ⟨ha, hl'⟩
    by_cases hpa : p a = true
    · simp [hpa] at hr
      rcases List.mem_cons.mp hs with h | h
      · subst h; subst hr; exact le_refl _
      · subst hr; exact ha s h
    · simp [hpa] at hr
      rcases List.mem_cons.mp hs with h | h
      · subst h; simp [hps] at hpa
      · exact ih hl' hr h

/-! ## Claim C1 -/

/-- The statement of claim C1, over a rule table given in the order of
the matcher's `ORDER BY priority DESC` query: the matcher refines the
first-match specification; a returned rule is active, matching, and of
maximal priority among active matching rules; inactive rules never
match and a miss returns `(none, none)`. -/
def cogsMatcherClaim (rules : List COGSMappingRule) (name : Str) : Prop :=
  match_cogs_rule rules name = cogsMatcherSpec rules name ∧
  (∀ r, (rules.filter (fun s => s.is_active)).find?
      (fun s => ruleMatches s name) = some r →
    match_cogs_rule rules name = (some r.id, some r.cogs_amount) ∧
    r.is_active = true ∧ ruleMatches r name = true ∧
    ∀ s ∈ rules, s.is_active = true → ruleMatches s name = true →
      s.priority ≤ r.priority) ∧
  ((∀ s ∈ rules, s.is_active = true → ruleMatches s name = false) →
    match_cogs_rule rules name = (none, none))

/-- C1: for every normalized item name and rule table iterated in
descending-priority order, `match_cogs_rule` returns the id and
per-unit cost of the first active rule with a matching keyword
(maximal priority among active matches), skips inactive rules, and
returns `(none, none)` when no active rule matches. -/
theorem match_cogs_rule_first_active_rule_wins
    (rules : List COGSMappingRule) (name : Str)
    (hsorted : rules.Pairwise (fun a b => b.priority ≤ a.priority)) :
    cogsMatcherClaim rules name := by
  have hmain : match_cogs_rule rules name = cogsMatcherSpec rules name := by
    unfold match_cogs_rule cogsMatcherSpec
    exact matchRulesLoop_eq_find _ _
  refine ⟨hmain, ?_, ?_⟩
  · intro r hr
    have hrP := List.find?_some hr
    have hrMem := List.mem_of_find?_eq_some hr
    have hrActive : r.is_active = true := (List.mem_filter.mp hrMem).2
    refine ⟨?_, hrActive, hrP, ?_⟩
    · rw [hmain]; unfold cogsMatcherSpec; rw [hr]
    · intro s hs hsActive hsP
      have hsMem : s ∈ rules.filter (fun t => t.is_active) :=
        List.mem_filter.mpr ⟨hs, hsActive⟩
      exact find?_weight_max (fun u => u.priority) _ _
        (hsorted.sublist (List.filter_sublist _)) r hr s hsMem hsP
  · intro hnone
    rw [hmain]; unfold cogsMatcherSpec
    have : (rules.filter (fun s => s.is_active)).find?
        (fun s => ruleMatches s name) = none := by
      rw [List.find?_eq_none]
      intro s hsMem
      have := List.mem_filter.mp hsMem
      simp [hnone s this.1 this.2]
    rw [this]

/-- Concrete rules for the priority-precedence scenario of the spec
(§8.3): R1 (priority 100, keyword "booster box", cost 90) and R2
(priority 50, keyword "booster", cost 10). -/
def wRule1 : COGSMappingRule :=
  ⟨1, "R1".toList, ["booster box".toList], 90, .contains, 100, true, none⟩

def wRule2 : COGSMappingRule :=
  ⟨2, "R2".toList, ["booster".toList], 10, .contains, 50, true, none⟩

/-- Witness for C1 at the spec's own example: rules R1/R2 against
"OP14 Booster Box". -/
theorem match_cogs_rule_first_active_rule_wins_witness :
    cogsMatcherClaim [wRule1, wRule2]
      (normalize_product_name "OP14 Booster Box".toList) :=
  match_cogs_rule_first_active_rule_wins [wRule1, wRule2]
    (normalize_product_name "OP14 Booster Box".toList) (by decide)

/-! ## Claim C2 -/

/-- An active `contains`-mode rule whose only keyword is the raw string
"Marshall D. Teach" (as in the matcher's own docstring example). -/
def wRuleMarshall : COGSMappingRule :=
  ⟨5, "Marshall D. Teach".toList, ["Marshall D. Teach".toList], 30,
    .contains, 100, true, none⟩

/-- Counterexample to C2: the matcher normalizes keywords only by
`lower().strip()`, not by `normalize_product_name`.  The keyword
"Marshall D. Teach" and the item name "Marshall D Teach (AA)" contain
the same characters up to case/punctuation — under the claimed
symmetric normalization the keyword is a substring of the normalized
name — yet the matcher finds no match, because the keyword keeps its
period. -/
theorem cogs_keyword_normalization_asymmetry_cex :
    strContains (normalize_product_name "Marshall D Teach (AA)".toList)
      (normalize_product_name "Marshall D. Teach".toList) = true ∧
    wRuleMarshall.is_active = true ∧
    wRuleMarshall.match_type = MatchType.contains ∧
    match_cogs_rule [wRuleMarshall]
      (normalize_product_name "Marshall D Teach (AA)".toList) =
      (none, none) := by
  refine ⟨by decide, rfl, rfl, by decide⟩

/-- C2 amended: in `match_cogs_rule` every rule keyword is normalized
by `lower().strip()` only (while the item name is normalized by
`normalize_product_name` upstream); a single active `contains` rule
matches exactly when the lower-cased, stripped form of one of its
keywords is a substring of the name.  Keywords differing from the name
only in case or leading/trailing whitespace therefore match; keywords
containing punctuation need not. -/
theorem match_cogs_rule_keyword_lower_strip (rule : COGSMappingRule)
    (name : Str) (hactive : rule.is_active = true)
    (hmode : rule.match_type = MatchType.contains) :
    match_cogs_rule [rule] name = (some rule.id, some rule.cogs_amount) ↔
      ∃ kw ∈ rule.keywords, strContains name (pyStrip (pyLower kw)) = true := by
  unfold match_cogs_rule
  rw [matchRulesLoop_eq_find]
  have hfil : [rule].filter (fun r => r.is_active) = [rule] := by
    simp [List.filter_cons, hactive]
  rw [hfil]
  rw [List.find?_singleton]
  cases h : ruleMatches rule name with
  | true =>
    rw [if_pos rfl]
    unfold ruleMatches at h
    rw [List.any_eq_true] at h
    obtain ⟨kw, hkw, htest⟩ := h
    rw [hmode] at htest
    simp only [keywordTest] at htest
    constructor
    · intro _; exact ⟨kw, hkw, htest⟩
    · intro _; rfl
  | false =>
    rw [if_neg (by decide)]
    unfold ruleMatches at h
    constructor
    · intro hcontra
      exact absurd (congrArg Prod.fst hcontra) (by simp)
    · rintro ⟨kw, hkw, htest⟩
      have : rule.keywords.any (fun kw =>
          keywordTest rule.match_type (pyStrip (pyLower kw)) name) = true := by
        rw [List.any_eq_true]
        exact ⟨kw, hkw, by rw [hmode]; exact htest⟩
      rw [h] at this
      cases this

/-- A contains-rule whose keyword differs from the target only in case
and surrounding whitespace. -/
def wRuleLowerStrip : COGSMappingRule :=
  ⟨3, "W".toList, [" BOOSTER Box ".toList], 25, .contains, 10, true, none⟩

/-- Witness for the amended C2 at a concrete rule and name. -/
theorem match_cogs_rule_keyword_lower_strip_witness :
    match_cogs_rule [wRuleLowerStrip] "xx booster box yy".toList =
        (some wRuleLowerStrip.id, some wRuleLowerStrip.cogs_amount) ↔
      ∃ kw ∈ wRuleLowerStrip.keywords,
        strContains "xx booster box yy".toList (pyStrip (pyLower kw)) = true :=
  match_cogs_rule_keyword_lower_strip wRuleLowerStrip
    "xx booster box yy".toList rfl rfl

/-! ## Claim C4 -/

/-- C4: `apply_cogs_to_transaction` sets
`cogs := unitCost × quantity`, records the rule id, sets
`net_profit := net_earnings − cogs`, computes
`roi_percent = net_profit / cogs × 100` for positive cogs and leaves it
`null` for zero cogs (no division by zero). -/
theorem apply_cogs_arithmetic (t : SalesTransaction) (cogs_per_unit : ℚ)
    (rule_id : Option Nat) :
    (apply_cogs_to_transaction t cogs_per_unit rule_id).cogs =
      some (cogs_per_unit * (t.quantity : ℚ)) ∧
    (apply_cogs_to_transaction t cogs_per_unit rule_id).matched_cogs_rule_id =
      rule_id ∧
    (apply_cogs_to_transaction t cogs_per_unit rule_id).net_profit =
      some (t.net_earnings - cogs_per_unit * (t.quantity : ℚ)) ∧
    (0 < cogs_per_unit * (t.quantity : ℚ) →
      (apply_cogs_to_transaction t cogs_per_unit rule_id).roi_percent =
        some ((t.net_earnings - cogs_per_unit * (t.quantity : ℚ)) /
          (cogs_per_unit * (t.quantity : ℚ)) * 100)) ∧
    (cogs_per_unit * (t.quantity : ℚ) = 0 →
      (apply_cogs_to_transaction t cogs_per_unit rule_id).roi_percent = none) := by
  refine ⟨rfl, rfl, rfl, ?_, ?_⟩
  · intro hpos
    simp [apply_cogs_to_transaction, hpos]
  · intro hzero
    simp [apply_cogs_to_transaction, hzero]

/-- A concrete transaction with quantity 3 and net earnings 45 (spec
§8.6). -/
def wTx : SalesTransaction :=
  ⟨1, some 1, "stream".toList, "Item".toList, 3, 50, 45, none, none, none,
    none, none, false, none, none⟩

/-- Witness for C4: quantity 3, unit cost 10, net earnings 45 gives
cogs 30, net profit 15, ROI 50; zero unit cost gives null ROI. -/
theorem apply_cogs_arithmetic_witness :
    (apply_cogs_to_transaction wTx 10 (some 5)).cogs = some 30 ∧
    (apply_cogs_to_transaction wTx 10 (some 5)).net_profit = some 15 ∧
    (apply_cogs_to_transaction wTx 10 (some 5)).roi_percent = some 50 ∧
    (apply_cogs_to_transaction wTx 0 none).roi_percent = none := by
  have h := apply_cogs_arithmetic wTx 10 (some 5)
  have h0 := apply_cogs_arithmetic wTx 0 none
  refine ⟨?_, ?_, ?_, ?_⟩
  · rw [h.1]; norm_num [wTx]
  · rw [h.2.2.1]; norm_num [wTx]
  · rw [h.2.2.2.1 (by norm_num [wTx])]; norm_num [wTx]
  · exact h0.2.2.2.2 (by norm_num [wTx])

/-! ## Claim C7 -/

theorem apply_cogs_item_name (t : SalesTransaction) (c : ℚ)
    (rid : Option Nat) :
    (apply_cogs_to_transaction t c rid).item_name = t.item_name := rfl

theorem apply_cogs_idem (t : SalesTransaction) (c : ℚ) (rid : Option Nat) :
    apply_cogs_to_transaction (apply_cogs_to_transaction t c rid) c rid =
      apply_cogs_to_transaction t c rid := rfl

/-- C7: `recalculate_transaction_cogs` re-normalizes the item name and
re-runs the matcher from scratch; on a match it overwrites the four
COGS-derived fields via `apply_cogs_to_transaction`, on a miss it
clears all four to null; and a second recalculation with the same rule
set is a no-op. -/
theorem recalculate_overwrites_and_idempotent
    (rules : List COGSMappingRule) (t : SalesTransaction) :
    (∀ rid amt,
      match_cogs_rule rules (normalize_product_name t.item_name) =
          (rid, some amt) →
      recalculate_transaction_cogs rules t =
        (apply_cogs_to_transaction t amt rid, true)) ∧
    (∀ rid,
      match_cogs_rule rules (normalize_product_name t.item_name) =
          (rid, none) →
      (recalculate_transaction_cogs rules t).1.cogs = none ∧
      (recalculate_transaction_cogs rules t).1.net_profit = none ∧
      (recalculate_transaction_cogs rules t).1.roi_percent = none ∧
      (recalculate_transaction_cogs rules t).1.matched_cogs_rule_id = none ∧
      (recalculate_transaction_cogs rules t).2 = false) ∧
    recalculate_transaction_cogs rules (recalculate_transaction_cogs rules t).1 =
      recalculate_transaction_cogs rules t := by
  refine ⟨?_, ?_, ?_⟩
  · intro rid amt hmatch
    simp only [recalculate_transaction_cogs]
    rw [hmatch]
  · intro rid hmatch
    simp only [recalculate_transaction_cogs]
    rw [hmatch]
    exact ⟨rfl, rfl, rfl, rfl, rfl⟩
  · cases hm : match_cogs_rule rules (normalize_product_name t.item_name) with
    | mk rid osnd =>
      cases osnd with
      | some amt =>
        have h1 : recalculate_transaction_cogs rules t =
            (apply_cogs_to_transaction t amt rid, true) := by
          simp only [recalculate_transaction_cogs]
          rw [hm]
        rw [h1]
        simp only [recalculate_transaction_cogs]
        rw [apply_cogs_item_name, hm]
        rfl
      | none =>
        have h1 : recalculate_transaction_cogs rules t =
            (clearCogsFields t, false) := by
          simp only [recalculate_transaction_cogs]
          rw [hm]
        rw [h1]
        simp only [recalculate_transaction_cogs]
        rw [show (clearCogsFields t).item_name = t.item_name from rfl, hm]
        rfl

/-- A transaction whose name matches no rule in `[wRule1, wRule2]`. -/
def wTxMiss : SalesTransaction :=
  ⟨2, some 1, "stream".toList, "Plush Charizard".toList, 1, 20, 18,
    some 4, some 14, some 350, some 9, none, false, none, none⟩

/-- A transaction whose name matches `wRule1` ("booster box"). -/
def wTxHit : SalesTransaction :=
  ⟨3, some 1, "stream".toList, "OP14 Booster Box".toList, 2, 200, 180,
    none, none, none, none, none, false, none, none⟩

/-- Witness for C7: a matching recalculation applies rule `wRule1`, a
non-matching one clears all four fields, and both are idempotent. -/
theorem recalculate_overwrites_and_idempotent_witness :
    recalculate_transaction_cogs [wRule1, wRule2] wTxHit =
      (apply_cogs_to_transaction wTxHit 90 (some 1), true) ∧
    (recalculate_transaction_cogs [wRule1, wRule2] wTxMiss).1.cogs = none ∧
    (recalculate_transaction_cogs [wRule1, wRule2] wTxMiss).1.matched_cogs_rule_id
      = none ∧
    recalculate_transaction_cogs [wRule1, wRule2]
        (recalculate_transaction_cogs [wRule1, wRule2] wTxMiss).1 =
      recalculate_transaction_cogs [wRule1, wRule2] wTxMiss := by
  have hHit := recalculate_overwrites_and_idempotent [wRule1, wRule2] wTxHit
  have hMiss := recalculate_overwrites_and_idempotent [wRule1, wRule2] wTxMiss
  refine ⟨hHit.1 (some 1) 90 (by decide), ?_, ?_, hMiss.2.2⟩
  · exact (hMiss.2.1 none (by decide)).1
  · exact (hMiss.2.1 none (by decide)).2.2.2.1

/-! ## Claim C10 -/

/-- C10: the bulk mark-mapped action for entry `catalog_id` leaves
every transaction already manually mapped (`is_mapped = true`) to a
*different* catalog entry completely unchanged: the row at each
position survives verbatim (hence its `catalog_item_id`, `is_mapped`,
`matched_keyword` and `mapped_at` fields are untouched), regardless of
whether its item name matches the target entry's keywords. -/
theorem mark_mapped_preserves_other_mappings
    (catalog_items : List ProductCatalog)
    (transactions txs' : List SalesTransaction) (catalog_id now : Nat)
    (h : mark_catalog_item_mapped catalog_items transactions catalog_id now =
      some txs')
    (i : Nat) (t : SalesTransaction) (hti : transactions[i]? = some t)
    (hm : t.is_mapped = true) (j : Nat) (hj : t.catalog_item_id = some j)
    (hne : j ≠ catalog_id) :
    txs'[i]? = some t := by
  unfold mark_catalog_item_mapped at h
  cases hfind : catalog_items.find? (fun c => c.id == catalog_id) with
  | none => rw [hfind] at h; cases h
  | some item =>
    rw [hfind] at h
    have htxs : txs' = transactions.map (fun t =>
        if visibleTransaction t then markMappedTx catalog_id item now t
        else t) := by
      cases h; rfl
    subst htxs
    rw [List.getElem?_map, hti]
    have hskip : markMappedTx catalog_id item now t = t := by
      unfold markMappedTx
      have hbeq : (t.catalog_item_id == some catalog_id) = false := by
        rw [hj]
        simp [hne]
      rw [hm, hbeq]
      simp
    simp [hskip]

/-- A transaction manually mapped to catalog entry 2. -/
def wTxMapped : SalesTransaction :=
  ⟨4, some 1, "stream".toList, "Surging Sparks ETB".toList, 1, 60, 54,
    none, none, none, none, some 2, true, some "etb".toList, some 7⟩

/-- A catalog entry (id 1) whose keyword would match `wTxMapped`'s
item name. -/
def wCatalogEtb : ProductCatalog :=
  ⟨1, "Surging Sparks Elite Trainer Box".toList,
    CatalogRuleType.include_any, ["etb".toList], [], 100, ["etb".toList]⟩

/-- Witness for C10: marking entry 1 leaves `wTxMapped` (manually
mapped to entry 2) untouched even though its name contains "etb" — the
operation returns the transaction list verbatim. -/
theorem mark_mapped_preserves_other_mappings_witness :
    ([wTxMapped] : List SalesTransaction)[0]? = some wTxMapped :=
  mark_mapped_preserves_other_mappings [wCatalogEtb] [wTxMapped] [wTxMapped]
    1 9 (by decide) 0 wTxMapped rfl rfl 2 rfl (by decide)

/-! ## Claim C3 -/

theorem catalogMainPass_eq_find (items : List ProductCatalog) (name : Str) :
    catalogMainPass items name =
      ((items.filter
          (fun c => !(c.rule_type == CatalogRuleType.catch_all))).find?
        (fun c => catalogEntryMatches c name)).map (fun c => c.id) := by
  induction items with
  | nil => simp [catalogMainPass]
  | cons c cs ih =>
    cases hct : (c.rule_type == CatalogRuleType.catch_all) with
    | true => simp [catalogMainPass, hct, ih]
    | false =>
      cases hm : catalogEntryMatches c name with
      | true =>
        simp [catalogMainPass, hct, hm, List.filter_cons, List.find?_cons]
      | false =>
        simp [catalogMainPass, hct, hm, ih, List.filter_cons,
          List.find?_cons]

/-- The statement of claim C3, over a catalog table given in the order
of the view's `ORDER BY priority DESC` query: manual mappings win
outright; otherwise the first (maximal-priority) matching non-catch-all
entry; otherwise the catch-all entry if any; otherwise no entry, and
the transaction contributes to no entry's sales count or revenue sum.
The last conjunct spells out the three keyword rule kinds. -/
def catalogResolutionClaim (catalog_items : List ProductCatalog)
    (t : SalesTransaction) : Prop :=
  (∀ cid, t.catalog_item_id = some cid → t.is_mapped = true →
    (∃ c ∈ catalog_items, c.id = cid) →
    resolveCatalogItem catalog_items t = some cid) ∧
  (¬ (t.is_mapped = true ∧ ∃ cid, t.catalog_item_id = some cid ∧
      ∃ c ∈ catalog_items, c.id = cid) →
    (∀ c, (catalog_items.filter
          (fun c => !(c.rule_type == CatalogRuleType.catch_all))).find?
        (fun c => catalogEntryMatches c (pyLower t.item_name)) = some c →
      resolveCatalogItem catalog_items t = some c.id ∧
      ∀ c' ∈ catalog_items, c'.rule_type ≠ CatalogRuleType.catch_all →
        catalogEntryMatches c' (pyLower t.item_name) = true →
        c'.priority ≤ c.priority) ∧
    ((catalog_items.filter
          (fun c => !(c.rule_type == CatalogRuleType.catch_all))).find?
        (fun c => catalogEntryMatches c (pyLower t.item_name)) = none →
      resolveCatalogItem catalog_items t =
        (firstCatchAll catalog_items).map (fun c => c.id))) ∧
  (resolveCatalogItem catalog_items t = none →
    ∀ item rest,
      get_product_catalog_sales catalog_items (t :: rest) item =
        get_product_catalog_sales catalog_items rest item ∧
      get_product_catalog_revenue catalog_items (t :: rest) item =
        get_product_catalog_revenue catalog_items rest item) ∧
  (∀ c : ProductCatalog,
    (c.rule_type = CatalogRuleType.include_any →
      (catalogEntryMatches c (pyLower t.item_name) = true ↔
        ∃ kw ∈ c.include_keywords,
          strContains (pyLower t.item_name) (pyLower kw) = true)) ∧
    (c.rule_type = CatalogRuleType.include_all →
      (catalogEntryMatches c (pyLower t.item_name) = true ↔
        ∀ kw ∈ c.include_keywords,
          strContains (pyLower t.item_name) (pyLower kw) = true)) ∧
    (c.rule_type = CatalogRuleType.include_and_exclude →
      (catalogEntryMatches c (pyLower t.item_name) = true ↔
        ((∃ kw ∈ c.include_keywords,
            strContains (pyLower t.item_name) (pyLower kw) = true) ∧
          ∀ kw ∈ c.exclude_keywords,
            strContains (pyLower t.item_name) (pyLower kw) = false))))

/-- C3: the transaction→catalog-entry resolution of
`get_product_catalog` assigns exactly one of: the still-existing
manually mapped entry; the first matching non-catch-all entry in
descending-priority order; the catch-all entry; or no entry, in which
case the transaction is excluded from every entry's counts.
Hypotheses: the catalog query order is descending priority, and
persisted primary keys are positive. -/
theorem get_product_catalog_resolution (catalog_items : List ProductCatalog)
    (t : SalesTransaction)
    (hsorted : catalog_items.Pairwise (fun a b => b.priority ≤ a.priority))
    (hpos : ∀ c ∈ catalog_items, 0 < c.id) :
    catalogResolutionClaim catalog_items t := by
  refine ⟨?_, ?_, ?_, ?_⟩
  · intro cid hcid hmapped hex
    obtain ⟨c, hcmem, hcide⟩ := hex
    have h0 : cid ≠ 0 := by
      have := hpos c hcmem
      omega
    have hany : catalog_items.any (fun c => c.id == cid) = true := by
      rw [List.any_eq_true]
      exact ⟨c, hcmem, by simp [hcide]⟩
    simp [resolveCatalogItem, hcid, h0, hmapped, hany]
  · intro hnoman
    have hres : resolveCatalogItem catalog_items t =
        match catalogMainPass catalog_items (pyLower t.item_name) with
        | some cid => some cid
        | none => (firstCatchAll catalog_items).map (fun c => c.id) := by
      unfold resolveCatalogItem
      cases hcid : t.catalog_item_id with
      | none => rfl
      | some cid =>
        have hcond : ¬ (cid ≠ 0 ∧ t.is_mapped = true ∧
            (catalog_items.any fun c => c.id == cid) = true) := by
          rintro ⟨h0, hmapped, hany⟩
          rw [List.any_eq_true] at hany
          obtain ⟨c, hcmem, hceq⟩ := hany
          exact hnoman ⟨hmapped, cid, hcid, c, hcmem, by simpa using hceq⟩
        dsimp only
        rw [if_neg hcond]
    constructor
    · intro c hfind
      refine ⟨?_, ?_⟩
      · rw [hres, catalogMainPass_eq_find, hfind]
        rfl
      · intro c' hc'mem hc'kind hc'match
        have hc'filter : c' ∈ catalog_items.filter
            (fun c => !(c.rule_type == CatalogRuleType.catch_all)) := by
          rw [List.mem_filter]
          refine ⟨hc'mem, by simp [hc'kind]⟩
        exact find?_weight_max (fun u => u.priority) _ _
          (hsorted.sublist (List.filter_sublist _)) c hfind c' hc'filter
          hc'match
    · intro hnone
      rw [hres, catalogMainPass_eq_find, hnone]
      rfl
  · intro hres item rest
    constructor
    · unfold get_product_catalog_sales
      rw [List.filter_cons]
      cases hv : visibleTransaction t with
      | false => rw [if_neg (by simp)]
      | true =>
        rw [if_pos rfl, List.filter_cons]
        rw [if_neg (by simp [hres])]
    · unfold get_product_catalog_revenue
      rw [List.filter_cons]
      cases hv : visibleTransaction t with
      | false => rw [if_neg (by simp)]
      | true =>
        rw [if_pos rfl, List.filter_cons]
        rw [if_neg (by simp [hres])]
  · intro c
    refine ⟨?_, ?_, ?_⟩
    · intro hkind
      simp [catalogEntryMatches, hkind, List.any_eq_true]
    · intro hkind
      simp [catalogEntryMatches, hkind, List.all_eq_true]
    · intro hkind
      simp only [catalogEntryMatches, hkind]
      rw [Bool.and_eq_true, Bool.not_eq_true', List.any_eq_false]
      simp [List.any_eq_true]

/-- Concrete catalog for the C3 witness: a specific entry (priority
100) and a catch-all entry (priority 0). -/
def wCatalogBox : ProductCatalog :=
  ⟨3, "Booster Box".toList, CatalogRuleType.include_any,
    ["booster box".toList], [], 100, []⟩

def wCatalogRest : ProductCatalog :=
  ⟨4, "Unmapped Items".toList, CatalogRuleType.catch_all, [], [], 0, []⟩

/-- Witness for C3 at a concrete catalog and transaction. -/
theorem get_product_catalog_resolution_witness :
    catalogResolutionClaim [wCatalogBox, wCatalogRest] wTxHit :=
  get_product_catalog_resolution [wCatalogBox, wCatalogRest] wTxHit
    (by decide) (by decide)

/-! ## Claim C9 -/

/-- A non-test transaction whose *normalized* name contains
"booster box" but whose *lower-cased* name does not (the period
survives lower-casing). -/
def wTxPunct : SalesTransaction :=
  ⟨6, some 1, "stream".toList, "Booster. Box".toList, 1, 100, 95, none,
    none, none, none, none, false, none, none⟩

def wState9 : DBState := ⟨[], [wTxPunct], []⟩

/-- Counterexample to C9: the bulk scan of `save_product_cogs` matches
on `t.item_name.lower()`, not on the §4.1-normalized name.  For the
item "Booster. Box" and keyword "booster box" the normalized name
contains the keyword, the transaction is outside the test bucket, yet
the scan leaves its `cogs` untouched (null). -/
theorem save_product_cogs_normalized_name_cex :
    strContains (normalize_product_name wTxPunct.item_name)
      (pyLower "booster box".toList) = true ∧
    visibleTransaction wTxPunct = true ∧
    ((save_product_cogs wState9 "Booster Box".toList 90
        ["booster box".toList]).transactions.map (fun t => t.cogs)) =
      [none] := by
  refine ⟨by decide, by decide, by decide⟩

/-- C9 amended: the bulk save-COGS scan visits every transaction except
the test bucket and applies the cost (via `bulkApplyTx`, with the
upserted rule's id) exactly to those whose *lower-cased* item name
contains at least one of the supplied keywords; every other row —
test-bucket or keyword-miss — survives verbatim. -/
theorem save_product_cogs_scan_lowercase (s : DBState)
    (product_name : Str) (cogs : ℚ) (keywords : List Str) (i : Nat)
    (t : SalesTransaction) (hti : s.transactions[i]? = some t) :
    ((visibleTransaction t = true ∧
        ∃ kw ∈ keywords,
          strContains (pyLower t.item_name) (pyLower kw) = true) →
      (save_product_cogs s product_name cogs keywords).transactions[i]? =
        some (bulkApplyTx cogs
          (upsertAutoRule s.rules
            (product_name ++ " - Auto-generated".toList) keywords cogs
            product_name).2 t)) ∧
    ((visibleTransaction t = false ∨
        ∀ kw ∈ keywords,
          strContains (pyLower t.item_name) (pyLower kw) = false) →
      (save_product_cogs s product_name cogs keywords).transactions[i]? =
        some t) := by
  constructor
  · rintro ⟨hv, kw, hkwmem, hkwhit⟩
    have hhit : kwHit keywords t = true := by
      rw [kwHit, List.any_eq_true]
      exact ⟨kw, hkwmem, hkwhit⟩
    simp only [save_product_cogs]
    rw [List.getElem?_map, hti]
    simp [bulkScanTx, hv, hhit]
  · intro hmiss
    have hcond : (visibleTransaction t && kwHit keywords t) = false := by
      cases hmiss with
      | inl hv => simp [hv]
      | inr hnk =>
        have : kwHit keywords t = false := by
          rw [kwHit, List.any_eq_false]
          intro kw hkw
          simp [hnk kw hkw]
        simp [this]
    simp only [save_product_cogs]
    rw [List.getElem?_map, hti]
    simp [bulkScanTx, hcond]

/-- Witness for the amended C9: the scan applies the cost to `wTxHit`
("OP14 Booster Box") for keyword "booster box". -/
theorem save_product_cogs_scan_lowercase_witness :
    (save_product_cogs ⟨[], [wTxHit], []⟩ "Booster Box".toList 90
        ["booster box".toList]).transactions[0]? =
      some (bulkApplyTx 90
        (upsertAutoRule []
          ("Booster Box".toList ++ " - Auto-generated".toList)
          ["booster box".toList] 90 "Booster Box".toList).2 wTxHit) :=
  (save_product_cogs_scan_lowercase ⟨[], [wTxHit], []⟩
    "Booster Box".toList 90 ["booster box".toList] 0 wTxHit rfl).1
    ⟨by decide, "booster box".toList, by decide, by decide⟩

/-! ## Claim C8 -/

/-- A non-test transaction with zero net earnings. -/
def wTxZeroNE : SalesTransaction :=
  ⟨7, some 1, "stream".toList, "booster pack".toList, 1, 10, 0, none,
    none, none, none, none, false, none, none⟩

def wState8 : DBState := ⟨[], [wTxZeroNE], []⟩

/-- Counterexample to C8: the bulk save-COGS path guards the
`net_profit` update with `if t.net_earnings:`, so a matched transaction
with `net_earnings = 0` ends with non-null `cogs` but a stale
`net_profit` (here still null) instead of `net_earnings − cogs`. -/
theorem cogs_net_profit_invariant_cex :
    ((save_product_cogs wState8 "Booster".toList 5
        ["booster".toList]).transactions.map
      (fun t => (t.cogs, t.net_profit, t.net_earnings))) =
        [(some 5, none, 0)] ∧
    ((save_product_cogs wState8 "Booster".toList 5
        ["booster".toList]).transactions.map
      (fun t => t.net_profit == some (t.net_earnings - t.cogs.getD 0))) =
        [false] := by
  exact ⟨by decide, by decide⟩

/-- C8 amended: every COGS-mutating engine operation except the bulk
save-COGS path establishes `net_profit = net_earnings − cogs` whenever
it writes `cogs` (`apply_cogs_to_transaction` covers rule application
and recalculation; `manual_override_cogs` the manual override); the
bulk path does so only when `net_earnings ≠ 0`, and for
`net_earnings = 0` it writes `cogs` but leaves `net_profit` at its
prior value. -/
theorem cogs_net_profit_consistency (t : SalesTransaction) (c : ℚ)
    (rid : Option Nat) (rid2 : Nat) :
    ((apply_cogs_to_transaction t c rid).net_profit =
      some (t.net_earnings - c * (t.quantity : ℚ))) ∧
    ((manual_override_cogs t c).net_profit =
      some (t.net_earnings - c)) ∧
    (t.net_earnings ≠ 0 →
      (bulkApplyTx c rid2 t).net_profit =
        some (t.net_earnings - c * (t.quantity : ℚ))) ∧
    (t.net_earnings = 0 →
      (bulkApplyTx c rid2 t).cogs = some (c * (t.quantity : ℚ)) ∧
      (bulkApplyTx c rid2 t).net_profit = t.net_profit) := by
  refine ⟨rfl, rfl, ?_, ?_⟩
  · intro hne
    simp only [bulkApplyTx]
    split_ifs with h1 h2
    · exact absurd h1 hne
    · rfl
    · rfl
  · intro h0
    simp only [bulkApplyTx]
    split_ifs
    exact ⟨rfl, rfl⟩

/-- Witness for the amended C8 at concrete transactions with nonzero
and zero net earnings. -/
theorem cogs_net_profit_consistency_witness :
    (apply_cogs_to_transaction wTx 10 (some 5)).net_profit =
      some (wTx.net_earnings - 10 * (wTx.quantity : ℚ)) ∧
    (bulkApplyTx 5 1 wTx).net_profit =
      some (wTx.net_earnings - 5 * (wTx.quantity : ℚ)) ∧
    (bulkApplyTx 5 1 wTxZeroNE).net_profit = wTxZeroNE.net_profit :=
  ⟨(cogs_net_profit_consistency wTx 10 (some 5) 1).1,
   (cogs_net_profit_consistency wTx 5 (some 5) 1).2.2.1 (by decide),
   ((cogs_net_profit_consistency wTxZeroNE 5 none 1).2.2.2 (by decide)).2⟩

/-! ## Claim C5 -/

/-- C5: after `save_product_cogs`, every show with a positive primary
key (the scan's `if t.show_id:` truthiness guard skips the falsy id 0;
persisted autoincrement keys are ≥ 1) that had at least one transaction
matched by the scan carries `total_cogs` / `total_net_profit` equal to
the sums of `cogs` / `net_profit` (null as 0) over all transactions
attached to it in the final state. -/
theorem save_product_cogs_show_totals (s : DBState) (product_name : Str)
    (cogs : ℚ) (keywords : List Str) (sh : WhatnotShow)
    (hpos : 0 < sh.id)
    (hsh : sh ∈ (save_product_cogs s product_name cogs keywords).shows)
    (htouched : ∃ t ∈ s.transactions, visibleTransaction t = true ∧
      kwHit keywords t = true ∧ t.show_id = some sh.id) :
    sh.total_cogs =
      (((save_product_cogs s product_name cogs keywords).transactions.filter
        (fun t => t.show_id == some sh.id)).map
          (fun t => t.cogs.getD 0)).sum ∧
    sh.total_net_profit =
      (((save_product_cogs s product_name cogs keywords).transactions.filter
        (fun t => t.show_id == some sh.id)).map
          (fun t => t.net_profit.getD 0)).sum := by
  simp only [save_product_cogs] at hsh ⊢
  obtain ⟨sh₀, hmem, hequ⟩ := List.mem_map.mp hsh
  unfold showRecompute at hequ
  by_cases haff :
      ((affectedShowIds keywords s.transactions).contains sh₀.id) = true
  · rw [if_pos haff] at hequ
    subst hequ
    exact ⟨rfl, rfl⟩
  · rw [if_neg haff] at hequ
    subst hequ
    obtain ⟨t, htmem, hv, hk, hshow⟩ := htouched
    refine absurd (List.elem_eq_true_of_mem (List.mem_filterMap.mpr
      ⟨t, htmem, ?_⟩)) haff
    rw [hv, hk, hshow]
    have h0 := Nat.pos_iff_ne_zero.mp hpos
    simp [h0]

/-- A second transaction on show 1 that the keyword misses. -/
def wTxOther : SalesTransaction :=
  ⟨8, some 1, "stream".toList, "Single Card".toList, 1, 12, 11, none,
    some 3, none, none, none, false, none, none⟩

def wShow : WhatnotShow := ⟨1, 0, 0⟩

def wState5 : DBState := ⟨[], [wTxHit, wTxOther], [wShow]⟩

/-- Witness for C5: after propagating cost 90 for keyword
"booster box", show 1's totals are re-summed from its two transactions
(total cogs 180 = 90 × 2 plus null-as-0; total net profit 3 = the
matched row's 180 − 180 plus the unmatched row's prior 3). -/
theorem save_product_cogs_show_totals_witness :
    (⟨1, 180, 3⟩ : WhatnotShow).total_cogs =
      (((save_product_cogs wState5 "Booster Box".toList 90
          ["booster box".toList]).transactions.filter
        (fun t => t.show_id == some (⟨1, 180, 3⟩ : WhatnotShow).id)).map
          (fun t => t.cogs.getD 0)).sum ∧
    (⟨1, 180, 3⟩ : WhatnotShow).total_net_profit =
      (((save_product_cogs wState5 "Booster Box".toList 90
          ["booster box".toList]).transactions.filter
        (fun t => t.show_id == some (⟨1, 180, 3⟩ : WhatnotShow).id)).map
          (fun t => t.net_profit.getD 0)).sum :=
  save_product_cogs_show_totals wState5 "Booster Box".toList 90
    ["booster box".toList] ⟨1, 180, 3⟩ (by decide) (by decide)
    ⟨wTxHit, by decide, by decide, by decide, by decide⟩

/-! ## Claim C6 -/

theorem updateAutoRule_self (n : Str) (kws : List Str) (c : ℚ)
    (rules rules' : List COGSMappingRule) (i : Nat)
    (h : updateAutoRule n kws c rules = some (rules', i)) :
    updateAutoRule n kws c rules' = some (rules', i) := by
  induction rules generalizing rules' i with
  | nil => cases h
  | cons r rs ih =>
    unfold updateAutoRule at h
    cases hname : (r.rule_name == n) with
    | true =>
      rw [if_pos hname] at h
      injection h with h
      injection h with h₁ h₂
      subst h₁
      subst h₂
      unfold updateAutoRule
      rw [if_pos hname]
    | false =>
      rw [if_neg (by simp [hname])] at h
      cases hrec : updateAutoRule n kws c rs with
      | none => rw [hrec] at h; cases h
      | some p =>
        obtain ⟨rs'', i''⟩ := p
        rw [hrec] at h
        injection h with h
        injection h with h₁ h₂
        subst h₁
        subst h₂
        unfold updateAutoRule
        rw [if_neg (by simp [hname]), ih rs'' i'' hrec]

theorem updateAutoRule_append_new (n : Str) (kws : List Str) (c : ℚ)
    (rules : List COGSMappingRule)
    (h : updateAutoRule n kws c rules = none) (rid : Nat) (pn : Str) :
    updateAutoRule n kws c
        (rules ++ [⟨rid, n, kws, c, .contains, 50, true, some pn⟩]) =
      some (rules ++ [⟨rid, n, kws, c, .contains, 50, true, some pn⟩],
        rid) := by
  induction rules with
  | nil =>
    rw [List.nil_append]
    unfold updateAutoRule
    rw [if_pos (by simp)]
  | cons r rs ih =>
    unfold updateAutoRule at h
    cases hname : (r.rule_name == n) with
    | true => rw [if_pos hname] at h; cases h
    | false =>
      rw [if_neg (by simp [hname])] at h
      have hrec : updateAutoRule n kws c rs = none := by
        cases hrec : updateAutoRule n kws c rs with
        | none => rfl
        | some p =>
          obtain ⟨rs'', i''⟩ := p
          rw [hrec] at h
          cases h
      rw [List.cons_append]
      unfold updateAutoRule
      rw [if_neg (by simp [hname]), ih hrec]

theorem upsertAutoRule_idem (rules : List COGSMappingRule) (n : Str)
    (kws : List Str) (c : ℚ) (pn : Str) :
    upsertAutoRule (upsertAutoRule rules n kws c pn).1 n kws c pn =
      upsertAutoRule rules n kws c pn := by
  unfold upsertAutoRule
  cases h : updateAutoRule n kws c rules with
  | some p =>
    obtain ⟨rs', i⟩ := p
    rw [updateAutoRule_self n kws c rules rs' i h]
  | none =>
    rw [updateAutoRule_append_new n kws c rules h (freshRuleId rules) pn]

theorem bulkApplyTx_frame (c : ℚ) (rid : Nat) (t : SalesTransaction) :
    (bulkApplyTx c rid t).item_name = t.item_name ∧
    (bulkApplyTx c rid t).show_id = t.show_id ∧
    (bulkApplyTx c rid t).sale_type = t.sale_type ∧
    (bulkApplyTx c rid t).quantity = t.quantity ∧
    (bulkApplyTx c rid t).net_earnings = t.net_earnings := by
  simp only [bulkApplyTx]
  split_ifs <;> exact ⟨rfl, rfl, rfl, rfl, rfl⟩

theorem bulkApplyTx_idem (c : ℚ) (rid : Nat) (t : SalesTransaction) :
    bulkApplyTx c rid (bulkApplyTx c rid t) = bulkApplyTx c rid t := by
  by_cases h0 : t.net_earnings = 0
  · simp [bulkApplyTx, h0]
  · by_cases hc : c * (t.quantity : ℚ) > 0
    · simp [bulkApplyTx, h0, hc]
    · simp [bulkApplyTx, h0, hc]

theorem visibleTransaction_bulkApplyTx (c : ℚ) (rid : Nat)
    (t : SalesTransaction) :
    visibleTransaction (bulkApplyTx c rid t) = visibleTransaction t := by
  obtain ⟨-, h2, h3, -, -⟩ := bulkApplyTx_frame c rid t
  simp [visibleTransaction, h2, h3]

theorem kwHit_bulkApplyTx (kws : List Str) (c : ℚ) (rid : Nat)
    (t : SalesTransaction) :
    kwHit kws (bulkApplyTx c rid t) = kwHit kws t := by
  obtain ⟨h1, -, -, -, -⟩ := bulkApplyTx_frame c rid t
  simp [kwHit, h1]

theorem bulkScanTx_idem (c : ℚ) (rid : Nat) (kws : List Str)
    (t : SalesTransaction) :
    bulkScanTx c rid kws (bulkScanTx c rid kws t) =
      bulkScanTx c rid kws t := by
  cases hcond : (visibleTransaction t && kwHit kws t) with
  | true =>
    simp [bulkScanTx, hcond, visibleTransaction_bulkApplyTx,
      kwHit_bulkApplyTx, bulkApplyTx_idem]
  | false => simp [bulkScanTx, hcond]

theorem map_bulkScanTx_idem (c : ℚ) (rid : Nat) (kws : List Str)
    (txs : List SalesTransaction) :
    (txs.map (bulkScanTx c rid kws)).map (bulkScanTx c rid kws) =
      txs.map (bulkScanTx c rid kws) := by
  rw [List.map_map]
  exact List.map_congr_left (fun t _ => bulkScanTx_idem c rid kws t)

theorem bulkScanTx_scan_frame (c : ℚ) (rid : Nat) (kws : List Str)
    (t : SalesTransaction) :
    (if visibleTransaction (bulkScanTx c rid kws t) &&
        kwHit kws (bulkScanTx c rid kws t) then
      match (bulkScanTx c rid kws t).show_id with
      | some sid => if sid ≠ 0 then some sid else none
      | none => none
    else none) =
      (if visibleTransaction t && kwHit kws t then
        match t.show_id with
        | some sid => if sid ≠ 0 then some sid else none
        | none => none
      else none) := by
  cases hcond : (visibleTransaction t && kwHit kws t) with
  | true =>
    have hscan : bulkScanTx c rid kws t = bulkApplyTx c rid t := by
      simp [bulkScanTx, hcond]
    rw [hscan, visibleTransaction_bulkApplyTx, kwHit_bulkApplyTx, hcond,
      (bulkApplyTx_frame c rid t).2.1]
  | false => simp [bulkScanTx, hcond]

theorem affectedShowIds_map_bulkScanTx (kws : List Str) (c : ℚ)
    (rid : Nat) (txs : List SalesTransaction) :
    affectedShowIds kws (txs.map (bulkScanTx c rid kws)) =
      affectedShowIds kws txs := by
  unfold affectedShowIds
  rw [List.filterMap_map]
  exact List.filterMap_congr (fun t _ => bulkScanTx_scan_frame c rid kws t)

theorem showRecompute_idem (T : List SalesTransaction) (A : List Nat)
    (sh : WhatnotShow) :
    showRecompute T A (showRecompute T A sh) = showRecompute T A sh := by
  unfold showRecompute
  split_ifs <;> rfl

/-- C6: running `save_product_cogs` twice with identical inputs from
the same starting state equals running it once: the matched
transactions' fields are re-assigned (not accumulated), the auto rule
converges (created on the first run, updated in place to the same state
on the second), and show totals are re-summed from scratch. -/
theorem save_product_cogs_idempotent (s : DBState) (product_name : Str)
    (cogs : ℚ) (keywords : List Str) :
    save_product_cogs (save_product_cogs s product_name cogs keywords)
        product_name cogs keywords =
      save_product_cogs s product_name cogs keywords := by
  simp only [save_product_cogs]
  have hU := upsertAutoRule_idem s.rules
    (product_name ++ " - Auto-generated".toList) keywords cogs product_name
  rw [hU, map_bulkScanTx_idem, affectedShowIds_map_bulkScanTx,
    List.map_map]
  congr 1
  exact List.map_congr_left (fun sh _ => showRecompute_idem _ _ sh)

end Kanto
